import Mathlib

/-!
Verification of the ASCII chart-rendering core of ouracli
(`src/ouracli/charts_ascii.py`).

The Python source is shallowly embedded: Python floats become exact
rationals (ℚ), Python strings become lists of characters, the mutable
bucket array becomes a fold over an explicit list state, and the outcome
of `datetime.fromisoformat` on a sample's timestamp field is modelled by
an inductive that distinguishes a missing field, an unparseable field,
and a successfully parsed wall-clock time.
-/

namespace OuraCli

/-- Outcome of reading and parsing a heart-rate sample's timestamp field.
`missing` models an absent key or empty string (falsy in Python),
`malformed` models a string `datetime.fromisoformat` rejects, and
`valid day hour minute second` models a successful parse (the source only
ever reads `dt.hour` and `dt.minute`; day and second are carried to show
they are ignored). A parse produced by `datetime` satisfies
`hour < 24` and `minute < 60`. -/
inductive TimestampField where
  | missing : TimestampField
  | malformed : TimestampField
  | valid : (day : Nat) → (hour : Nat) → (minute : Nat) → (second : Nat) → TimestampField

/-- One element of the `heartrate_data` list: a dict with optional
`timestamp` and `bpm` keys. -/
structure HrSample where
  timestamp : TimestampField
  bpm : Option ℚ

/-- Python `max(l)` for a nonempty list (`l[0]` folded with `max`);
the `[]` case is never reached, all call sites guard nonemptiness. -/
def listMax : List ℚ → ℚ
  | [] => 0
  | h :: t => t.foldl max h

/-- Python `min(l)` for a nonempty list; `[]` case unreachable at call sites. -/
def listMin : List ℚ → ℚ
  | [] => 0
  | h :: t => t.foldl min h

/-- Source `all_bpms`: the `bpm` values of the readings whose `bpm` key is present
(charts_ascii.py lines 25-29). -/
def allBpms (data : List HrSample) : List ℚ :=
  data.filterMap (fun s => s.bpm)

/-- Source line 30: `actual_min = (min(all_bpms) - 10) if all_bpms else 0.0`. -/
def hrActualMin (data : List HrSample) : ℚ :=
  if (allBpms data).isEmpty then 0 else listMin (allBpms data) - 10

/-- Source line 31: `actual_max = max(all_bpms) if all_bpms else 100.0`. -/
def hrActualMax (data : List HrSample) : ℚ :=
  if (allBpms data).isEmpty then 100 else listMax (allBpms data)

/-- One iteration of the bucketing loop (lines 36-51): a sample with a
parsed timestamp and a present value appends its value to bucket
`(hour*60 + minute) / 10` when that index is below 144; every other
sample leaves the bucket array unchanged (the `0 <= bucket_idx` half of
the source's range check is automatic for naturals). -/
def bucketUpdate (acc : List (List ℚ)) (s : HrSample) : List (List ℚ) :=
  match s.timestamp, s.bpm with
  | .valid _ h m _, some v =>
      let totalMinutes := h * 60 + m
      let idx := totalMinutes / 10
      if idx < 144 then acc.set idx (acc.getD idx [] ++ [v]) else acc
  | _, _ => acc

/-- Source `ten_minute_buckets` after the loop of lines 34-51: 144 lists of
contributing values, built left to right over the input. -/
def tenMinuteBuckets (data : List HrSample) : List (List ℚ) :=
  data.foldl bucketUpdate (List.replicate 144 [])

/-- Lines 53-59: each bucket's aggregate, the arithmetic mean of its
contents, `0` for an empty bucket. -/
def hrBuckets (data : List HrSample) : List ℚ :=
  (tenMinuteBuckets data).map (fun b => if b.isEmpty then 0 else b.sum / (b.length : ℚ))

/-- The values the bucketing loop routes to bucket `k`, in input order:
samples with a parsed timestamp, a present value, and
`(hour*60 + minute) / 10 = k`. -/
def contributions (data : List HrSample) (k : Nat) : List ℚ :=
  data.filterMap (fun s =>
    match s.timestamp, s.bpm with
    | .valid _ h m _, some v => if (h * 60 + m) / 10 = k then some v else none
    | _, _ => none)

/-- A sample the bucketing loop does not skip outright: parsed timestamp
and present value (the in-range check on the index happens later). -/
def hrUsable (s : HrSample) : Bool :=
  match s.timestamp, s.bpm with
  | .valid _ _ _ _, some _ => true
  | _, _ => false

theorem bucketUpdate_length (acc : List (List ℚ)) (s : HrSample) :
    (bucketUpdate acc s).length = acc.length := by
  obtain ⟨ts, bpm⟩ := s
  cases ts with
  | missing => cases bpm <;> rfl
  | malformed => cases bpm <;> rfl
  | valid d h m sec =>
      cases bpm with
      | none => rfl
      | some v =>
          show (if (h * 60 + m) / 10 < 144 then
              acc.set ((h * 60 + m) / 10) (acc.getD ((h * 60 + m) / 10) [] ++ [v])
            else acc).length = acc.length
          split <;> simp

theorem tenMinuteBuckets_go_length (data : List HrSample) :
    ∀ acc : List (List ℚ), (data.foldl bucketUpdate acc).length = acc.length := by
  induction data with
  | nil => intro acc; rfl
  | cons s rest ih =>
      intro acc
      simp only [List.foldl_cons]
      rw [ih, bucketUpdate_length]

theorem tenMinuteBuckets_length (data : List HrSample) :
    (tenMinuteBuckets data).length = 144 := by
  unfold tenMinuteBuckets
  rw [tenMinuteBuckets_go_length]
  simp

theorem contributions_cons_valid (d h m sec : Nat) (v : ℚ) (rest : List HrSample) (k : Nat) :
    contributions ({ timestamp := .valid d h m sec, bpm := some v } :: rest) k =
      (if (h * 60 + m) / 10 = k then [v] else []) ++ contributions rest k := by
  by_cases hc : (h * 60 + m) / 10 = k <;>
    simp [contributions, List.filterMap_cons, hc]

theorem bucketUpdate_getD_valid (acc : List (List ℚ)) (d h m sec : Nat) (v : ℚ)
    (hlen : acc.length = 144) (k : Nat) (hk : k < 144) :
    (bucketUpdate acc { timestamp := .valid d h m sec, bpm := some v }).getD k [] =
      acc.getD k [] ++ (if (h * 60 + m) / 10 = k then [v] else []) := by
  show (if (h * 60 + m) / 10 < 144 then
      acc.set ((h * 60 + m) / 10) (acc.getD ((h * 60 + m) / 10) [] ++ [v])
    else acc).getD k [] = _
  by_cases heq : (h * 60 + m) / 10 = k
  · rw [heq, if_pos hk, if_pos rfl, List.getD_eq_getElem?_getD,
      List.getElem?_set_self (by rw [hlen]; exact hk), Option.getD_some,
      List.getD_eq_getElem?_getD]
  · rw [if_neg heq, List.append_nil]
    by_cases hidx : (h * 60 + m) / 10 < 144
    · rw [if_pos hidx, List.getD_eq_getElem?_getD, List.getElem?_set_ne heq,
        ← List.getD_eq_getElem?_getD]
    · rw [if_neg hidx]

theorem tenMinuteBuckets_go_getD (data : List HrSample) :
    ∀ acc : List (List ℚ), acc.length = 144 → ∀ k, k < 144 →
      (data.foldl bucketUpdate acc).getD k [] = acc.getD k [] ++ contributions data k := by
  induction data with
  | nil =>
      intro acc _ k _
      simp [contributions]
  | cons s rest ih =>
      intro acc hlen k hk
      simp only [List.foldl_cons]
      rw [ih (bucketUpdate acc s) (by rw [bucketUpdate_length]; exact hlen) k hk]
      obtain ⟨ts, bpm⟩ := s
      cases ts with
      | valid d h m sec =>
          cases bpm with
          | some v =>
              rw [contributions_cons_valid, bucketUpdate_getD_valid acc d h m sec v hlen k hk,
                List.append_assoc]
          | none => rfl
      | missing => cases bpm <;> rfl
      | malformed => cases bpm <;> rfl

theorem tenMinuteBuckets_getD (data : List HrSample) (k : Nat) (hk : k < 144) :
    (tenMinuteBuckets data).getD k [] = contributions data k := by
  unfold tenMinuteBuckets
  rw [tenMinuteBuckets_go_getD data (List.replicate 144 []) (by simp) k hk]
  rw [List.getD_eq_getElem?_getD, List.getElem?_replicate]
  rw [if_pos hk, Option.getD_some, List.nil_append]

theorem hrBuckets_getD (data : List HrSample) (k : Nat) (hk : k < 144) :
    (hrBuckets data).getD k 0 =
      (if contributions data k = [] then 0
       else (contributions data k).sum / ((contributions data k).length : ℚ)) := by
  unfold hrBuckets
  have hlen : k < (tenMinuteBuckets data).length := by
    rw [tenMinuteBuckets_length]; exact hk
  rw [List.getD_eq_getElem?_getD, List.getElem?_map, List.getElem?_eq_getElem hlen]
  have hget : (tenMinuteBuckets data)[k] = contributions data k := by
    have h2 := tenMinuteBuckets_getD data k hk
    rwa [List.getD_eq_getElem?_getD, List.getElem?_eq_getElem hlen, Option.getD_some] at h2
  rw [hget, Option.map_some', Option.getD_some]
  by_cases he : contributions data k = [] <;> simp [he]

/-- The scenario input: heart-rate samples at 00:00, 00:05 and 00:10 with
values 60, 70 and 80. -/
def hrScenario : List HrSample :=
  [⟨.valid 0 0 0 0, some 60⟩, ⟨.valid 0 0 5 0, some 70⟩, ⟨.valid 0 0 10 0, some 80⟩]

/-- C1: on the timestamp path with 144 buckets, a sample with a parseable
timestamp and a present value lands in bucket (hour*60+minute)/10 (seconds
and calendar date ignored), each bucket aggregates to the arithmetic mean
of its contributing values and an empty bucket aggregates to 0; on the
samples 00:00→60, 00:05→70, 00:10→80 bucket 0 is 65, bucket 1 is 80 and
all other buckets are 0. -/
theorem hr_bucket_mean_spec :
    (∀ (data : List HrSample) (k : Nat), k < 144 →
      (hrBuckets data).getD k 0 =
        (if contributions data k = [] then 0
         else (contributions data k).sum / ((contributions data k).length : ℚ))) ∧
    (hrBuckets hrScenario).getD 0 0 = 65 ∧
    (hrBuckets hrScenario).getD 1 0 = 80 ∧
    (∀ k, 2 ≤ k → k < 144 → (hrBuckets hrScenario).getD k 0 = 0) := by
  refine ⟨fun data k hk => hrBuckets_getD data k hk, ?_, ?_, ?_⟩
  · rw [hrBuckets_getD hrScenario 0 (by omega)]
    have hc : contributions hrScenario 0 = [60, 70] := by
      simp [contributions, hrScenario]
    rw [hc, if_neg (by simp)]
    norm_num
  · rw [hrBuckets_getD hrScenario 1 (by omega)]
    have hc : contributions hrScenario 1 = [80] := by
      simp [contributions, hrScenario]
    rw [hc]
    norm_num
  · intro k h2 hk
    rw [hrBuckets_getD hrScenario k hk]
    have e0 : (0 * 60 + 0) / 10 ≠ k := by omega
    have e1 : (0 * 60 + 5) / 10 ≠ k := by omega
    have e2 : (0 * 60 + 10) / 10 ≠ k := by omega
    have hc : contributions hrScenario k = [] := by
      simp [contributions, hrScenario, e0, e1, e2]
    rw [hc]
    simp

/-- Witness for C1 at the scenario input and bucket 0. -/
theorem hr_bucket_mean_spec_witness :
    (0 : Nat) < 144 ∧
    (hrBuckets hrScenario).getD 0 0 =
      (if contributions hrScenario 0 = [] then 0
       else (contributions hrScenario 0).sum / ((contributions hrScenario 0).length : ℚ)) :=
  ⟨by decide, hr_bucket_mean_spec.1 hrScenario 0 (by decide)⟩

/-- Source `bucket_size` of `create_ascii_bar_chart` (lines 83-86): integer
division of the input length by `num_buckets = width * 2`, bumped to 1
when it is 0. (Python raises on `width = 0`; callers pass positive
widths, and the theorems about this path assume `0 < width`.) -/
def metBucketSize (n width : Nat) : Nat :=
  if n / (width * 2) = 0 then 1 else n / (width * 2)

/-- Source `create_ascii_bar_chart` bucketing (lines 83-96): slice the input
into `bucket_size`-sized chunks starting at 0, `bucket_size`, ... (Python
`range(0, len, step)` visits `j * step` for `j < ceil(len / step)`), keep
the maximum of each nonempty chunk, and truncate to `width * 2` entries. -/
def metBuckets (met_items : List ℚ) (width : Nat) : List ℚ :=
  ((List.range ((met_items.length + metBucketSize met_items.length width - 1) /
      metBucketSize met_items.length width)).filterMap
    (fun j =>
      if (met_items.drop (j * metBucketSize met_items.length width)).take
          (metBucketSize met_items.length width) = [] then none
      else some (listMax ((met_items.drop (j * metBucketSize met_items.length width)).take
          (metBucketSize met_items.length width))))).take (width * 2)

theorem metBucketSize_pos (n width : Nat) : 0 < metBucketSize n width := by
  unfold metBucketSize
  by_cases h : n / (width * 2) = 0
  · rw [if_pos h]
    omega
  · rw [if_neg h]
    exact Nat.pos_of_ne_zero h

theorem start_lt_of_lt_ceil (n s j : Nat) (hs : 1 ≤ s) (hj : j < (n + s - 1) / s) :
    j * s < n := by
  have h1 : (j + 1) * s ≤ ((n + s - 1) / s) * s := mul_le_mul_right' hj s
  rw [Nat.succ_mul] at h1
  have h2 := Nat.div_mul_le_self (n + s - 1) s
  omega

theorem ceil_div_ge (n s B : Nat) (hs : 0 < s) (hBs : B * s ≤ n) :
    B ≤ (n + s - 1) / s := by
  rw [Nat.le_div_iff_mul_le hs]
  exact le_trans hBs (by omega)

theorem filterMap_eq_map_of_some {α β : Type} (f : α → Option β) (g : α → β) (l : List α)
    (h : ∀ x ∈ l, f x = some (g x)) : l.filterMap f = l.map g := by
  induction l with
  | nil => rfl
  | cons a t ih =>
      simp only [List.filterMap_cons, h a (List.mem_cons_self a t), List.map_cons,
        ih (fun x hx => h x (List.mem_cons_of_mem a hx))]

/-- Every chunk the slicing loop visits is nonempty, so the `if bucket:`
guard always takes the `max` branch and `metBuckets` is a truncated map. -/
theorem metBuckets_eq (met : List ℚ) (width : Nat) :
    metBuckets met width =
      ((List.range ((met.length + metBucketSize met.length width - 1) /
          metBucketSize met.length width)).map
        (fun j => listMax ((met.drop (j * metBucketSize met.length width)).take
          (metBucketSize met.length width)))).take (width * 2) := by
  unfold metBuckets
  congr 1
  apply filterMap_eq_map_of_some
  intro j hj
  have hj2 : j < (met.length + metBucketSize met.length width - 1) /
      metBucketSize met.length width := List.mem_range.mp hj
  have hlt : j * metBucketSize met.length width < met.length :=
    start_lt_of_lt_ceil _ _ _ (metBucketSize_pos _ _) hj2
  have hpos : 0 < ((met.drop (j * metBucketSize met.length width)).take
      (metBucketSize met.length width)).length := by
    rw [List.length_take, List.length_drop]
    have := metBucketSize_pos met.length width
    omega
  rw [if_neg (List.length_pos.mp hpos)]

theorem getD_map_range (g : Nat → ℚ) (n k : Nat) (hk : k < n) :
    ((List.range n).map g).getD k 0 = g k := by
  rw [List.getD_eq_getElem?_getD, List.getElem?_map, List.getElem?_range hk]
  rfl

/-- C2: on the positional path with a 1440-element input and width 72
(144 buckets, 10-item slices), bucket k is the maximum of
values[10k : 10k+10] for every k below 144. -/
theorem met_bucket_max_spec (met : List ℚ) (k : Nat) (hlen : met.length = 1440)
    (hk : k < 144) :
    (metBuckets met 72).getD k 0 = listMax ((met.drop (10 * k)).take 10) := by
  have hsize : metBucketSize met.length 72 = 10 := by rw [hlen]; rfl
  rw [metBuckets_eq, hsize, hlen]
  norm_num
  rw [List.take_of_length_le (by simp), List.getElem?_map, List.getElem?_range hk,
    Option.map_some', Option.getD_some, Nat.mul_comm k 10]

/-- Witness for C2 on a concrete 1440-element input at bucket 0. -/
theorem met_bucket_max_spec_witness :
    (List.replicate 1440 (0 : ℚ)).length = 1440 ∧ (0 : Nat) < 144 ∧
    (metBuckets (List.replicate 1440 (0 : ℚ)) 72).getD 0 0 =
      listMax (((List.replicate 1440 (0 : ℚ)).drop (10 * 0)).take 10) :=
  ⟨by rw [List.length_replicate], by omega,
    met_bucket_max_spec _ 0 (by rw [List.length_replicate]) (by omega)⟩

/-- C3 counterexample: a single-element input with width 2 (so B = 4)
yields one bucket, not B buckets — the code truncates but never pads. -/
theorem met_bucket_count_cex :
    metBuckets [5] 2 = [5] ∧ (metBuckets [5] 2).length ≠ 2 * 2 := by
  constructor
  · rfl
  · decide

/-- C3 amended: for a positive width and nonempty input, the positional
aggregator produces min(inputLength, B) bucket values with B = width * 2:
exactly B when the input has at least B elements (truncating any excess),
but only one bucket per input element — no padding — when it has fewer. -/
theorem met_bucket_count (met : List ℚ) (width : Nat) (hne : met ≠ [])
    (hw : 0 < width) :
    (metBuckets met width).length = min met.length (width * 2) := by
  have hn1 : 0 < met.length := List.length_pos.mpr hne
  rw [metBuckets_eq, List.length_take, List.length_map, List.length_range]
  by_cases hcase : met.length < width * 2
  · have hs : metBucketSize met.length width = 1 := by
      unfold metBucketSize
      rw [if_pos (Nat.div_eq_of_lt hcase)]
    rw [hs, Nat.add_sub_cancel, Nat.div_one, Nat.min_comm]
  · have hdiv : met.length / (width * 2) ≠ 0 := by
      have := Nat.div_pos (Nat.le_of_not_lt hcase) (by omega)
      omega
    have hs : metBucketSize met.length width = met.length / (width * 2) := by
      unfold metBucketSize
      rw [if_neg hdiv]
    rw [hs]
    have hB : width * 2 ≤ (met.length + met.length / (width * 2) - 1) /
        (met.length / (width * 2)) :=
      ceil_div_ge _ _ _ (Nat.pos_of_ne_zero hdiv)
        (by rw [Nat.mul_comm]; exact Nat.div_mul_le_self met.length (width * 2))
    rw [Nat.min_eq_left hB, Nat.min_eq_right (Nat.le_of_not_lt hcase)]

/-- Witness for C3 (amended) at the counterexample input. -/
theorem met_bucket_count_witness :
    ([5] : List ℚ) ≠ [] ∧ (0 : Nat) < 2 ∧
    (metBuckets [5] 2).length = min ([5] : List ℚ).length (2 * 2) :=
  ⟨by simp, by omega, met_bucket_count [5] 2 (by simp) (by omega)⟩

/-- Python `int()` applied to a rational: truncation toward zero
(the embedding of the source's `int(...)` casts on line 202/219). -/
def ratTrunc (q : ℚ) : Int := q.num.tdiv (q.den : Int)

/-- Lines 199-204 and 217-221: the total dot height of one bar. Zero
unless the value range and the value are both positive; otherwise the
scaled, truncated dot count (which may exceed the grid or, for a value
below `minv`, be negative — the per-row clamp handles both). -/
def dotsFilled (minv maxv : ℚ) (totalDots : Nat) (v : ℚ) : Int :=
  if 0 < maxv - minv ∧ 0 < v then
    ratTrunc (((v - minv) / (maxv - minv)) * (totalDots : ℚ))
  else 0

/-- Line 206: `row_bottom = total_dots - (row + 1) * 4` (as a Python int,
so signed). -/
def rowBottom (totalDots r : Nat) : Int := (totalDots : Int) - (r + 1) * 4

/-- Lines 209-215 (and 223-229): the number of lit dots of one sub-column
within one row: 0 at or below the row's bottom, 4 at or above its top,
`d - rowBottom` strictly inside. -/
def fillLevel (d rb : Int) : Nat :=
  if d ≤ rb then 0
  else if rb + 4 ≤ d then 4
  else (d - rb).toNat

/-- Lines 133-139: left sub-column dot masks for levels 0-4. -/
def leftPatterns : List Nat :=
  [0b00000000, 0b01000000, 0b01000100, 0b01000110, 0b01000111]

/-- Lines 142-148: right sub-column dot masks for levels 0-4. -/
def rightPatterns : List Nat :=
  [0b00000000, 0b10000000, 0b10100000, 0b10110000, 0b10111000]

/-- Lines 150-153: the scaling maximum — the caller-supplied bound if
present, else the bucket maximum (1.0 for an empty bucket list) — with an
exact 0 replaced by 1.0. -/
def resolveMaxVal (actual_max : Option ℚ) (buckets : List ℚ) : ℚ :=
  let m := match actual_max with
    | some v => v
    | none => if buckets = [] then 1 else listMax buckets
  if m = 0 then 1 else m

/-- Lines 155-160: the scaling minimum — the caller-supplied bound if
present, else the minimum of the strictly positive bucket values (0 if
there are none). -/
def resolveMinVal (actual_min : Option ℚ) (buckets : List ℚ) : ℚ :=
  match actual_min with
  | some v => v
  | none =>
      if buckets.filter (fun v => decide (0 < v)) = [] then 0
      else listMin (buckets.filter (fun v => decide (0 < v)))

/-- Lines 195-233: the glyph of pair `j` (buckets `2j` and `2j+1`, absent
buckets read as 0 via the source's guarded indexing) on grid row `r`. -/
def cellChar (buckets : List ℚ) (minv maxv : ℚ) (height r j : Nat) : Char :=
  Char.ofNat (0x2800 +
    (leftPatterns.getD
        (fillLevel (dotsFilled minv maxv (height * 4) (buckets.getD (2 * j) 0))
          (rowBottom (height * 4) r)) 0 |||
      rightPatterns.getD
        (fillLevel (dotsFilled minv maxv (height * 4) (buckets.getD (2 * j + 1) 0))
          (rowBottom (height * 4) r)) 0))

/-- The glyph characters of one grid row: Python
`range(0, len(buckets), 2)` visits `2j` for `j < ceil(len / 2)`. -/
def glyphRow (buckets : List ℚ) (minv maxv : ℚ) (height r : Nat) : List Char :=
  (List.range ((buckets.length + 1) / 2)).map (cellChar buckets minv maxv height r)

/-- Line 168: which rows carry a Y-axis label. -/
def labelRows (height : Nat) : List Nat :=
  if 10 ≤ height then [0, 2, 5, 7, 9] else [0, height / 2, height - 1]

/-- Lines 170-178: the numeric value displayed at a labelled row. -/
def valueAtRow (minv maxv : ℚ) (height r : Nat) : ℚ :=
  if r = 0 then maxv
  else if r = height - 1 then minv
  else maxv - ((r : ℚ) / ((height : ℚ) - 1)) * (maxv - minv)

/-- Round half to even, the rounding of Python float formatting. -/
def roundHalfEven (q : ℚ) : Int :=
  if q - ⌊q⌋ < 1 / 2 then ⌊q⌋
  else if 1 / 2 < q - ⌊q⌋ then ⌊q⌋ + 1
  else if ⌊q⌋ % 2 = 0 then ⌊q⌋ else ⌊q⌋ + 1

/-- Line 179: zero-decimal float formatting of a label value. A negative
value that rounds to zero prints as "-0", as in Python. -/
def fmtValue (q : ℚ) : List Char :=
  if roundHalfEven q = 0 ∧ q < 0 then ['-', '0']
  else (toString (roundHalfEven q)).data

/-- Lines 181-182: the width labels are right-justified to (the `if`
mirrors the source's guard; `label_rows` is never empty so the dict of
labels never is either). -/
def maxLabelWidth (minv maxv : ℚ) (height : Nat) : Nat :=
  if labelRows height = [] then 0
  else ((labelRows height).map
    (fun r => (fmtValue (valueAtRow minv maxv height r)).length)).foldl Nat.max 0

/-- Python `str.rjust`. -/
def rjustChars (s : List Char) (w : Nat) : List Char :=
  List.replicate (w - s.length) ' ' ++ s

/-- Lines 186-192: the label column and separator of one grid row —
the justified label (or all spaces), a space, the vertical bar, a space. -/
def rowLead (minv maxv : ℚ) (height r : Nat) : List Char :=
  (if r ∈ labelRows height then
      rjustChars (fmtValue (valueAtRow minv maxv height r)) (maxLabelWidth minv maxv height)
    else List.replicate (maxLabelWidth minv maxv height) ' ') ++ [' ', '│', ' ']

/-- One full grid row: lead then glyphs (lines 186-235). -/
def rowLine (buckets : List ℚ) (minv maxv : ℚ) (height r : Nat) : List Char :=
  rowLead minv maxv height r ++ glyphRow buckets minv maxv height r

/-- Line 238: the baseline. -/
def baselineRow (mlw width : Nat) : List Char :=
  List.replicate mlw ' ' ++ [' ', '└'] ++ List.replicate width '─'

/-- Lines 246-252: one hour's three-character slot. -/
def hourSlot (h : Nat) : List Char :=
  if h < 10 then [' '] ++ Nat.toDigits 10 h ++ [' ']
  else Nat.toDigits 10 h ++ [' ']

/-- The 24 concatenated hour slots (72 characters). -/
def hourCells : List Char := ((List.range 24).map hourSlot).flatten

/-- Line 255: the hour row — left padding of `mlw + 3` spaces, then the
hour slots truncated to `width`. -/
def hourRow (mlw width : Nat) : List Char :=
  List.replicate (mlw + 3) ' ' ++ hourCells.take width

/-- The `height + 2` output lines of
`_create_ascii_bar_chart_from_buckets`, each as a character list. -/
def chartLines (buckets : List ℚ) (width height : Nat) (amin amax : Option ℚ) :
    List (List Char) :=
  (List.range height).map
      (rowLine buckets (resolveMinVal amin buckets) (resolveMaxVal amax buckets) height) ++
    [baselineRow (maxLabelWidth (resolveMinVal amin buckets) (resolveMaxVal amax buckets)
        height) width,
      hourRow (maxLabelWidth (resolveMinVal amin buckets) (resolveMaxVal amax buckets)
        height) width]

/-- Source `_create_ascii_bar_chart_from_buckets` (lines 101-258): the lines
joined with newlines. The `unit` argument is accepted and never used, as
in the source. -/
def renderFromBuckets (buckets : List ℚ) (width height : Nat) (unit : String)
    (actual_min actual_max : Option ℚ) : String :=
  String.intercalate "\n"
    ((chartLines buckets width height actual_min actual_max).map List.asString)

/-- Source `create_heartrate_bar_chart_ascii` (lines 4-63); source defaults are
width 72, height 10. -/
def create_heartrate_bar_chart_ascii (heartrate_data : List HrSample)
    (width height : Nat) : String :=
  if heartrate_data.isEmpty then "No heart rate data"
  else renderFromBuckets (hrBuckets heartrate_data) width height "BPM"
    (some (hrActualMin heartrate_data)) (some (hrActualMax heartrate_data))

/-- Source `create_ascii_bar_chart` (lines 66-98); source defaults are width 72,
height 10. -/
def create_ascii_bar_chart (met_items : List ℚ) (width height : Nat) : String :=
  if met_items = [] then "No MET data"
  else renderFromBuckets (metBuckets met_items width) width height "MET" none none

/-- C10: for every domain (including an externally supplied one with
values outside it or with max below min) the per-row fill level lies in
[0, 4] — at or below the row bottom clamps to 0, at or above the row top
clamps to 4 — so it is always a valid index into the 5-entry pattern
tables and glyph selection is total. -/
theorem fill_level_safe (minv maxv v : ℚ) (totalDots : Nat) (rb : Int) :
    fillLevel (dotsFilled minv maxv totalDots v) rb ≤ 4 ∧
    fillLevel (dotsFilled minv maxv totalDots v) rb < leftPatterns.length ∧
    fillLevel (dotsFilled minv maxv totalDots v) rb < rightPatterns.length := by
  have h4 : ∀ d : Int, fillLevel d rb ≤ 4 := by
    intro d
    unfold fillLevel
    split
    · omega
    · split
      · omega
      · omega
  have hl : leftPatterns.length = 5 := rfl
  have hr : rightPatterns.length = 5 := rfl
  refine ⟨h4 _, ?_, ?_⟩
  · rw [hl]
    have := h4 (dotsFilled minv maxv totalDots v)
    omega
  · rw [hr]
    have := h4 (dotsFilled minv maxv totalDots v)
    omega

/-- C5: within one sub-column of one bar the fill level is monotonically
non-increasing from bottom to top: if row r1 is at or below row r2
(r2 ≤ r1 as indices, row 0 being the top), the level rendered at r1 is at
least the level rendered at r2 — no gaps below a filled region. -/
theorem fill_monotone (minv maxv v : ℚ) (height r1 r2 : Nat)
    (h21 : r2 ≤ r1) (h1h : r1 < height) :
    fillLevel (dotsFilled minv maxv (height * 4) v) (rowBottom (height * 4) r2) ≤
      fillLevel (dotsFilled minv maxv (height * 4) v) (rowBottom (height * 4) r1) := by
  have hrb : rowBottom (height * 4) r1 ≤ rowBottom (height * 4) r2 := by
    unfold rowBottom
    omega
  unfold fillLevel
  split_ifs <;> omega

/-- Witness for C5 at a mid-scale value, bottom row 9 vs top row 0,
height 10. -/
theorem fill_monotone_witness :
    (0 : Nat) ≤ 9 ∧ (9 : Nat) < 10 ∧
    fillLevel (dotsFilled 0 1 (10 * 4) (1 / 2)) (rowBottom (10 * 4) 0) ≤
      fillLevel (dotsFilled 0 1 (10 * 4) (1 / 2)) (rowBottom (10 * 4) 9) :=
  ⟨by omega, by omega, fill_monotone 0 1 (1 / 2) 10 9 0 (by omega) (by omega)⟩

theorem foldl_max_zero (l : List ℚ) (hz : ∀ v ∈ l, v = 0) : l.foldl max 0 = 0 := by
  induction l with
  | nil => rfl
  | cons a t ih =>
      rw [List.foldl_cons, hz a (by simp), max_self]
      exact ih (fun v hv => hz v (by simp [hv]))

theorem listMax_all_zero (l : List ℚ) (hne : l ≠ []) (hz : ∀ v ∈ l, v = 0) :
    listMax l = 0 := by
  match l, hne with
  | a :: t, _ =>
      unfold listMax
      rw [hz a (by simp)]
      exact foldl_max_zero t (fun v hv => hz v (by simp [hv]))

/-- C4 counterexample: with no external domain and the single bucket
value -5 there is no positive bucket value, yet the resolved maximum is
-5, not 1.0 — the fallback fires only when the bucket maximum is exactly
0, and a negative maximum is kept as is. -/
theorem zero_domain_cex :
    resolveMaxVal none [-5] = -5 ∧ ((-5 : ℚ)) ≠ 1 := by
  constructor
  · norm_num [resolveMaxVal, listMax]
  · norm_num

/-- C4 amended: with no external domain supplied and every bucket value
equal to zero (nonempty bucket list), the resolved domain is min 0,
max 1.0, and every glyph cell of every grid row is the empty pattern
(fill level 0 in both sub-columns). Merely having no positive bucket
values does not suffice when negative values are present (see the
counterexample): the fallback requires the bucket maximum to be 0. -/
theorem zero_domain_spec (buckets : List ℚ) (height r : Nat)
    (hne : buckets ≠ []) (hzero : ∀ v ∈ buckets, v = 0) (hr : r < height) :
    resolveMaxVal none buckets = 1 ∧ resolveMinVal none buckets = 0 ∧
    glyphRow buckets (resolveMinVal none buckets) (resolveMaxVal none buckets) height r =
      List.replicate ((buckets.length + 1) / 2) (Char.ofNat 0x2800) := by
  have hmax : listMax buckets = 0 := listMax_all_zero buckets hne hzero
  have hmaxv : resolveMaxVal none buckets = 1 := by
    show (if (if buckets = [] then (1 : ℚ) else listMax buckets) = 0 then 1
      else if buckets = [] then (1 : ℚ) else listMax buckets) = 1
    rw [if_neg hne, hmax, if_pos rfl]
  have hfil : buckets.filter (fun v => decide (0 < v)) = [] := by
    rw [List.filter_eq_nil_iff]
    intro a ha
    rw [hzero a ha]
    simp
  have hminv : resolveMinVal none buckets = 0 := by
    show (if buckets.filter (fun v => decide (0 < v)) = [] then 0
      else listMin (buckets.filter (fun v => decide (0 < v)))) = 0
    rw [if_pos hfil]
  refine ⟨hmaxv, hminv, ?_⟩
  rw [hminv, hmaxv]
  have hcell : ∀ j, cellChar buckets 0 1 height r j = Char.ofNat 0x2800 := by
    intro j
    have hd : ∀ i, buckets.getD i 0 = 0 := by
      intro i
      rw [List.getD_eq_getElem?_getD]
      cases hgi : buckets[i]? with
      | none => rfl
      | some v =>
          rw [Option.getD_some]
          exact hzero v (List.getElem?_mem hgi)
    have hdf : dotsFilled 0 1 (height * 4) 0 = 0 := by
      unfold dotsFilled
      rw [if_neg]
      norm_num
    have hlev : fillLevel 0 (rowBottom (height * 4) r) = 0 := by
      unfold fillLevel
      rw [if_pos]
      unfold rowBottom
      omega
    unfold cellChar
    rw [hd, hd, hdf, hlev]
    rfl
  unfold glyphRow
  rw [List.eq_replicate_iff]
  refine ⟨by simp, ?_⟩
  intro c hc
  obtain ⟨j, _, hj⟩ := List.mem_map.mp hc
  rw [← hj, hcell j]

/-- Witness for C4 at the all-zero two-bucket input, height 1, row 0. -/
theorem zero_domain_spec_witness :
    resolveMaxVal none [0, 0] = 1 ∧ resolveMinVal none [0, 0] = 0 ∧
    glyphRow [0, 0] (resolveMinVal none [0, 0]) (resolveMaxVal none [0, 0]) 1 0 =
      List.replicate ((([0, 0] : List ℚ).length + 1) / 2) (Char.ofNat 0x2800) :=
  zero_domain_spec [0, 0] 1 0 (by simp) (by intro v hv; simpa using hv) (by omega)

theorem bucketUpdate_skip (acc : List (List ℚ)) (s : HrSample)
    (hu : hrUsable s = false) : bucketUpdate acc s = acc := by
  obtain ⟨ts, bpm⟩ := s
  cases ts with
  | missing => cases bpm <;> rfl
  | malformed => cases bpm <;> rfl
  | valid d h m sec =>
      cases bpm with
      | none => rfl
      | some v => exact absurd hu (by simp [hrUsable])

theorem foldl_bucketUpdate_filter (data : List HrSample) :
    ∀ acc, (data.filter hrUsable).foldl bucketUpdate acc = data.foldl bucketUpdate acc := by
  induction data with
  | nil => intro acc; rfl
  | cons s rest ih =>
      intro acc
      by_cases hu : hrUsable s
      · rw [List.filter_cons_of_pos hu, List.foldl_cons, List.foldl_cons, ih]
      · rw [List.filter_cons_of_neg (by simpa using hu), List.foldl_cons, ih,
          bucketUpdate_skip acc s (by simpa using hu)]

/-- C7: a sample with a missing or unparseable timestamp or a missing
value is skipped locally: the heart-rate render of any nonempty input
still returns the chart built from the buckets (it never aborts), and
both the raw and aggregated buckets coincide with those of the usable
samples alone — skipped samples contribute nothing to any bucket. -/
theorem skip_malformed_spec :
    (∀ (data : List HrSample) (w h : Nat), data ≠ [] →
      create_heartrate_bar_chart_ascii data w h =
        renderFromBuckets (hrBuckets data) w h "BPM"
          (some (hrActualMin data)) (some (hrActualMax data))) ∧
    (∀ data : List HrSample,
      tenMinuteBuckets (data.filter hrUsable) = tenMinuteBuckets data) ∧
    (∀ data : List HrSample, hrBuckets (data.filter hrUsable) = hrBuckets data) := by
  refine ⟨?_, ?_, ?_⟩
  · intro data w h hd
    unfold create_heartrate_bar_chart_ascii
    rw [if_neg (by simp only [List.isEmpty_eq_true]; exact hd)]
  · intro data
    unfold tenMinuteBuckets
    rw [foldl_bucketUpdate_filter]
  · intro data
    unfold hrBuckets tenMinuteBuckets
    rw [foldl_bucketUpdate_filter]

/-- Witness for C7 on an input whose only sample has an unparseable
timestamp. -/
theorem skip_malformed_spec_witness :
    create_heartrate_bar_chart_ascii [⟨.malformed, some 50⟩] 72 10 =
      renderFromBuckets (hrBuckets [⟨.malformed, some 50⟩]) 72 10 "BPM"
        (some (hrActualMin [⟨.malformed, some 50⟩]))
        (some (hrActualMax [⟨.malformed, some 50⟩])) :=
  skip_malformed_spec.1 [⟨.malformed, some 50⟩] 72 10 (by simp)

/-- Ambient process state a renderer could in principle consult: the
clock and the locale. The chart source reads neither (no time or locale
call appears in the rendering path), so its semantics, here explicitly
parameterized over such an environment, cannot depend on it. -/
structure AmbientEnv where
  currentUnixTime : Nat
  localeName : List Char

/-- The heart-rate renderer interpreted in an ambient environment. -/
def heartrateChartInEnv (env : AmbientEnv) (data : List HrSample)
    (w h : Nat) : String :=
  create_heartrate_bar_chart_ascii data w h

/-- The intensity renderer interpreted in an ambient environment. -/
def metChartInEnv (env : AmbientEnv) (met : List ℚ) (w h : Nat) : String :=
  create_ascii_bar_chart met w h

/-- C9: rendering is deterministic — for identical inputs and
configuration both entry points yield identical output whatever the
ambient clock or locale, since the embedded renderers never consult the
environment. -/
theorem render_deterministic (e1 e2 : AmbientEnv) (data : List HrSample)
    (met : List ℚ) (w h : Nat) :
    heartrateChartInEnv e1 data w h = heartrateChartInEnv e2 data w h ∧
    metChartInEnv e1 met w h = metChartInEnv e2 met w h :=
  ⟨rfl, rfl⟩

theorem foldl_max_init_le (l : List Nat) : ∀ init, init ≤ l.foldl Nat.max init := by
  induction l with
  | nil => intro init; exact Nat.le_refl _
  | cons a t ih =>
      intro init
      rw [List.foldl_cons]
      exact le_trans (Nat.le_max_left init a) (ih _)

theorem mem_le_foldl_max (l : List Nat) : ∀ init, ∀ a ∈ l, a ≤ l.foldl Nat.max init := by
  induction l with
  | nil => intro _ a ha; cases ha
  | cons b t ih =>
      intro init a ha
      rw [List.foldl_cons]
      rcases List.mem_cons.mp ha with h | h
      · subst h
        exact le_trans (Nat.le_max_right init a) (foldl_max_init_le t _)
      · exact ih _ a h

theorem labelRows_ne_nil (height : Nat) : labelRows height ≠ [] := by
  unfold labelRows
  split <;> simp

/-- A label's width never exceeds the common justification width. -/
theorem label_le_maxLabelWidth (minv maxv : ℚ) (height r : Nat)
    (hmem : r ∈ labelRows height) :
    (fmtValue (valueAtRow minv maxv height r)).length ≤ maxLabelWidth minv maxv height := by
  unfold maxLabelWidth
  rw [if_neg (labelRows_ne_nil height)]
  exact mem_le_foldl_max _ 0 _
    (List.mem_map_of_mem (fun r => (fmtValue (valueAtRow minv maxv height r)).length) hmem)

theorem rowLead_length (minv maxv : ℚ) (height r : Nat) :
    (rowLead minv maxv height r).length = maxLabelWidth minv maxv height + 3 := by
  unfold rowLead
  by_cases hmem : r ∈ labelRows height
  · rw [if_pos hmem]
    unfold rjustChars
    rw [List.length_append, List.length_append, List.length_replicate]
    have hle := label_le_maxLabelWidth minv maxv height r hmem
    simp only [List.length_cons, List.length_nil]
    omega
  · rw [if_neg hmem, List.length_append, List.length_replicate]
    rfl

theorem glyphRow_length (buckets : List ℚ) (minv maxv : ℚ) (height r : Nat) :
    (glyphRow buckets minv maxv height r).length = (buckets.length + 1) / 2 := by
  unfold glyphRow
  rw [List.length_map, List.length_range]

theorem chartLines_length (buckets : List ℚ) (w h : Nat) (amin amax : Option ℚ) :
    (chartLines buckets w h amin amax).length = h + 2 := by
  unfold chartLines
  rw [List.length_append, List.length_map, List.length_range]
  rfl

theorem chartLines_getD_row (buckets : List ℚ) (w h : Nat) (amin amax : Option ℚ)
    (r : Nat) (hr : r < h) :
    (chartLines buckets w h amin amax).getD r [] =
      rowLine buckets (resolveMinVal amin buckets) (resolveMaxVal amax buckets) h r := by
  unfold chartLines
  rw [List.getD_eq_getElem?_getD,
    List.getElem?_append_left (by rw [List.length_map, List.length_range]; exact hr),
    List.getElem?_map, List.getElem?_range hr]
  rfl

/-- C6: the rendered chart always has height + 2 lines (height grid rows,
one baseline, one hour row); every grid row is a lead of exactly
maxLabelWidth + 3 characters followed by exactly ceil(bucketCount / 2)
glyph characters; and for nonempty input both entry points return exactly
these lines joined by newlines (the heart-rate path always renders 144
buckets, hence 72 glyphs per row). -/
theorem output_shape_spec (w h : Nat) :
    (∀ (buckets : List ℚ) (amin amax : Option ℚ),
      (chartLines buckets w h amin amax).length = h + 2 ∧
      ∀ r, r < h →
        (chartLines buckets w h amin amax).getD r [] =
          rowLead (resolveMinVal amin buckets) (resolveMaxVal amax buckets) h r ++
            glyphRow buckets (resolveMinVal amin buckets) (resolveMaxVal amax buckets)
              h r ∧
        (rowLead (resolveMinVal amin buckets) (resolveMaxVal amax buckets) h r).length =
          maxLabelWidth (resolveMinVal amin buckets) (resolveMaxVal amax buckets) h + 3 ∧
        (glyphRow buckets (resolveMinVal amin buckets) (resolveMaxVal amax buckets)
            h r).length = (buckets.length + 1) / 2) ∧
    (∀ data : List HrSample, data ≠ [] →
      create_heartrate_bar_chart_ascii data w h =
        String.intercalate "\n" ((chartLines (hrBuckets data) w h
          (some (hrActualMin data)) (some (hrActualMax data))).map List.asString) ∧
      (hrBuckets data).length = 144) ∧
    (∀ met : List ℚ, met ≠ [] →
      create_ascii_bar_chart met w h =
        String.intercalate "\n" ((chartLines (metBuckets met w) w h none none).map
          List.asString)) := by
  refine ⟨?_, ?_, ?_⟩
  · intro buckets amin amax
    refine ⟨chartLines_length buckets w h amin amax, ?_⟩
    intro r hr
    exact ⟨chartLines_getD_row buckets w h amin amax r hr,
      rowLead_length _ _ h r, glyphRow_length _ _ _ h r⟩
  · intro data hd
    constructor
    · unfold create_heartrate_bar_chart_ascii
      rw [if_neg (by simp only [List.isEmpty_eq_true]; exact hd)]
      rfl
    · unfold hrBuckets
      rw [List.length_map, tenMinuteBuckets_length]
  · intro met hm
    unfold create_ascii_bar_chart
    rw [if_neg hm]
    rfl

/-- Witness for C6 at a one-bucket input, width 5, height 3, row 0. -/
theorem output_shape_spec_witness :
    (chartLines ([1] : List ℚ) 5 3 none none).length = 3 + 2 ∧
    (glyphRow ([1] : List ℚ) (resolveMinVal none [1]) (resolveMaxVal none [1])
        3 0).length = (([1] : List ℚ).length + 1) / 2 :=
  ⟨((output_shape_spec 5 3).1 [1] none none).1,
    ((((output_shape_spec 5 3).1 [1] none none).2 0 (by omega))).2.2⟩

theorem chartLines_getD_hour (buckets : List ℚ) (w h : Nat) (amin amax : Option ℚ) :
    (chartLines buckets w h amin amax).getD (h + 1) [] =
      hourRow (maxLabelWidth (resolveMinVal amin buckets) (resolveMaxVal amax buckets) h)
        w := by
  unfold chartLines
  rw [List.getD_eq_getElem?_getD,
    List.getElem?_append_right (by rw [List.length_map, List.length_range]; omega)]
  rw [List.length_map, List.length_range]
  have hidx : h + 1 - h = 1 := by omega
  rw [hidx]
  rfl

theorem hourCells_length : hourCells.length = 72 := rfl

theorem hourRow_length (mlw w : Nat) :
    (hourRow mlw w).length = mlw + 3 + min w 72 := by
  unfold hourRow
  rw [List.length_append, List.length_replicate, List.length_take, hourCells_length]

/-- C8 counterexample: at width 73, on the concrete one-bucket render,
the hour portion of the hour row has 72 characters, not 73 — the 24
three-character slots only ever total 72 characters, and truncation
cannot pad. -/
theorem hour_row_cex :
    ((chartLines [1] 73 10 none none).getD 11 []).length =
      maxLabelWidth (resolveMinVal none [1]) (resolveMaxVal none [1]) 10 + 3 + 72 ∧
    ((chartLines [1] 73 10 none none).getD 11 []).length ≠
      maxLabelWidth (resolveMinVal none [1]) (resolveMaxVal none [1]) 10 + 3 + 73 := by
  have h1 : ((chartLines [1] 73 10 none none).getD 11 []).length =
      maxLabelWidth (resolveMinVal none [1]) (resolveMaxVal none [1]) 10 + 3 + 72 := by
    have := chartLines_getD_hour [1] 73 10 none none
    rw [show (10 + 1 : Nat) = 11 from rfl] at this
    rw [this, hourRow_length]
    omega
  exact ⟨h1, by omega⟩

/-- C8 amended: for every input and configuration the hour row is exactly
(maxLabelWidth + 3) spaces followed by the 24 concatenated hour slots
(single-digit hours as space-digit-space, double-digit as two digits and
a space — 72 characters in all) truncated to the width: its hour portion
has min(width, 72) characters, which equals width whenever width ≤ 72. -/
theorem hour_row_spec (buckets : List ℚ) (w h : Nat) (amin amax : Option ℚ) :
    (chartLines buckets w h amin amax).getD (h + 1) [] =
      List.replicate (maxLabelWidth (resolveMinVal amin buckets)
          (resolveMaxVal amax buckets) h + 3) ' ' ++ hourCells.take w ∧
    hourCells = ((List.range 24).map hourSlot).flatten ∧
    (hourCells.take w).length = min w 72 ∧
    (w ≤ 72 → (hourCells.take w).length = w) := by
  refine ⟨?_, rfl, ?_, ?_⟩
  · rw [chartLines_getD_hour]
    rfl
  · rw [List.length_take, hourCells_length]
  · intro hw
    rw [List.length_take, hourCells_length]
    exact Nat.min_eq_left hw

/-- Witness for C8 (amended): at width 72 the hour portion is exactly 72
characters. -/
theorem hour_row_spec_witness : (hourCells.take 72).length = 72 :=
  (hour_row_spec [1] 72 10 none none).2.2.2 (by omega)

end OuraCli
